import Mathlib

/-!
A shallow embedding of `src/main.rs` of the `nus-terminal` repository: a
terminal bridge to a BLE peripheral exposing the Nordic UART Service.

The embedding models the program's pure logic and its interaction
structure with the external BLE transport and terminal driver.  External
calls are oracles recorded in an `Env`; the program's behaviour is a
deterministic function of the `Env`, producing a trace of effects in
program (dispatch) order plus the outputs of the two concurrently
spawned activities (the notification relay and the per-keystroke sends),
which are kept as separate components since their interleaving with the
main trace is not ordered by the program.
-/

namespace NusTerminal

/-- The two fixed Nordic UART Service characteristic identifiers, from the
`Uuid::from_u128` constants in `main.rs` (write side). -/
def NUS_RX_CHAR_UUID : Nat := 0x6e400002b5a3f393e0a9e50e24dcca9e

/-- The notify-side characteristic identifier. -/
def NUS_TX_CHAR_UUID : Nat := 0x6e400003b5a3f393e0a9e50e24dcca9e

/-! ## Substring containment

Rust's `str::contains` with a string pattern: case-sensitive contiguous
substring search, modelled on the character lists of the strings. -/

/-- Whether `needle` is a prefix of `hay` (exact, case-sensitive
character comparison). -/
def prefixEq : List Char → List Char → Bool
  | [], _ => true
  | _ :: _, [] => false
  | a :: as, b :: bs => a == b && prefixEq as bs

/-- Whether `needle` occurs contiguously in `hay`: the semantics of
Rust's `hay.contains(needle)`. -/
def containsAux (needle : List Char) : List Char → Bool
  | [] => prefixEq needle []
  | hay@(_ :: rest) => prefixEq needle hay || containsAux needle rest

/-- Rust's `hay.contains(&pat)` for strings. -/
def strContains (hay pat : String) : Bool :=
  containsAux pat.data hay.data

/-! ## Peripheral discovery (the Device Locator) -/

/-- The fields of `btleplug`'s `PeripheralProperties` that the program
reads: the advertised local name. -/
structure PeripheralProps where
  local_name : Option String

/-- A discovered peripheral: an opaque identity plus the (fallible,
optional) result of its `properties()` lookup. -/
structure Peripheral where
  id : Nat
  propsResult : Except Unit (Option PeripheralProps)

/-- The predicate of the `find` closure in `main.rs`: `if let Ok(Some(props))
= block_on(p.properties()) { if let Some(name) = props.local_name { return
name.contains(&args.name); } } false`. -/
def peripheralMatches (filter : String) (p : Peripheral) : Bool :=
  match p.propsResult with
  | .ok (some props) =>
    match props.local_name with
    | some name => strContains name filter
    | none => false
  | _ => false

/-- The Device Locator selection step: `peripherals.into_iter().find(...)`
over the full list gathered after the scan window. -/
def findPeripheral (filter : String) (ps : List Peripheral) : Option Peripheral :=
  ps.find? (peripheralMatches filter)

/-! ## Key events and the Input Encoder

Key events come from `crossterm`; the program inspects the key code and,
for character keys, whether the CONTROL modifier is active. -/

/-- The `crossterm` key codes the program distinguishes.  `Other`
collects every remaining key code (F-keys, Home, PageUp, ...), which the
source's `_ => None` arm ignores. -/
inductive KeyCode
  | Esc
  | Backspace
  | Char (c : Char)
  | Left
  | Right
  | Up
  | Down
  | Enter
  | Tab
  | Other (n : Nat)
  deriving DecidableEq

/-- A key event: the key code plus whether `KeyModifiers::CONTROL` is
contained in the active modifier set. -/
structure KeyEvent where
  code : KeyCode
  ctrl : Bool
  deriving DecidableEq

/-- The byte produced for a character key: Rust's `c as u8` truncates the
code point to its low 8 bits; with CONTROL active the result is masked
with `0x1F`. -/
def encodeCharKey (c : Char) (ctrl : Bool) : Nat :=
  if ctrl then (c.toNat % 256) &&& 0x1F else c.toNat % 256

/-- What the bridge loop does with one key event. -/
inductive KeyAction
  | terminate
  | send (data : List Nat)
  | ignore
  deriving DecidableEq

/-- The `match key_event.code` arm of the bridge loop: Escape breaks the
loop, the table keys produce byte sequences, everything else is `None`. -/
def keyAction (e : KeyEvent) : KeyAction :=
  match e.code with
  | .Esc => .terminate
  | .Backspace => .send [0x08]
  | .Char c => .send [encodeCharKey c e.ctrl]
  | .Left => .send [0x1B, 0x5B, 0x44]
  | .Right => .send [0x1B, 0x5B, 0x43]
  | .Up => .send [0x1B, 0x5B, 0x41]
  | .Down => .send [0x1B, 0x5B, 0x42]
  | .Enter => .send [0x0D]
  | .Tab => .send [0x09]
  | .Other _ => .ignore

/-! ## The key-poll loop

The `loop { if event::poll(..) { ... } }` body, modelled over the finite
stream of key events the terminal will deliver.  Each `send` action
spawns a write task whose result (drawn from the oracle `w`, indexed by
spawn count) is discarded with `let _ = ...`; the loop `break`s at the
first Escape.  The result is the list of dispatched payloads in
keystroke order, paired with whether the loop was exited by Escape
(rather than the event stream running out while the loop still polls). -/
def pollLoop (w : Nat → Except Unit Unit) : List KeyEvent → Nat → List (List Nat) × Bool
  | [], _ => ([], false)
  | e :: rest, i =>
    match keyAction e with
    | .terminate => ([], true)
    | .send d =>
      let _ := w i
      let r := pollLoop w rest (i + 1)
      (d :: r.1, r.2)
    | .ignore => pollLoop w rest i

/-! ## Lossy UTF-8 decoding

`String::from_utf8_lossy`: decode a byte sequence as UTF-8, replacing
each maximal subpart of an ill-formed subsequence with U+FFFD (the
policy Rust's standard library implements).  Total by construction:
decoding never fails. -/

/-- The Unicode replacement character U+FFFD. -/
def replacementChar : Char := Char.ofNat 0xFFFD

/-- Is `b` a UTF-8 continuation byte (`0x80 ..= 0xBF`)? -/
def contByte (b : Nat) : Bool := 0x80 ≤ b && b ≤ 0xBF

/-- Lossy UTF-8 decoding of a byte list, following Rust's
`from_utf8_lossy`: well-formed scalar-value encodings decode to their
character; every maximal subpart of an ill-formed subsequence becomes
one `replacementChar`, and decoding resumes at the first byte not part
of that subpart. -/
def utf8Lossy : List Nat → List Char
  | [] => []
  | w :: rest =>
    if w < 0x80 then
      Char.ofNat w :: utf8Lossy rest
    else if w < 0xC2 then
      replacementChar :: utf8Lossy rest
    else if w ≤ 0xDF then
      match rest with
      | [] => [replacementChar]
      | b1 :: rest1 =>
        if contByte b1 then
          Char.ofNat (((w &&& 0x1F) <<< 6) ||| (b1 &&& 0x3F)) :: utf8Lossy rest1
        else
          replacementChar :: utf8Lossy (b1 :: rest1)
    else if w ≤ 0xEF then
      match rest with
      | [] => [replacementChar]
      | b1 :: rest1 =>
        if (if w == 0xE0 then decide (0xA0 ≤ b1) && decide (b1 ≤ 0xBF)
            else if w == 0xED then decide (0x80 ≤ b1) && decide (b1 ≤ 0x9F)
            else contByte b1) then
          match rest1 with
          | [] => [replacementChar]
          | b2 :: rest2 =>
            if contByte b2 then
              Char.ofNat (((w &&& 0x0F) <<< 12) ||| ((b1 &&& 0x3F) <<< 6) |||
                (b2 &&& 0x3F)) :: utf8Lossy rest2
            else
              replacementChar :: utf8Lossy (b2 :: rest2)
        else
          replacementChar :: utf8Lossy (b1 :: rest1)
    else if w ≤ 0xF4 then
      match rest with
      | [] => [replacementChar]
      | b1 :: rest1 =>
        if (if w == 0xF0 then decide (0x90 ≤ b1) && decide (b1 ≤ 0xBF)
            else if w == 0xF4 then decide (0x80 ≤ b1) && decide (b1 ≤ 0x8F)
            else contByte b1) then
          match rest1 with
          | [] => [replacementChar]
          | b2 :: rest2 =>
            if contByte b2 then
              match rest2 with
              | [] => [replacementChar]
              | b3 :: rest3 =>
                if contByte b3 then
                  Char.ofNat (((w &&& 0x07) <<< 18) ||| ((b1 &&& 0x3F) <<< 12) |||
                    ((b2 &&& 0x3F) <<< 6) ||| (b3 &&& 0x3F)) :: utf8Lossy rest3
                else
                  replacementChar :: utf8Lossy (b3 :: rest3)
            else
              replacementChar :: utf8Lossy (b2 :: rest2)
        else
          replacementChar :: utf8Lossy (b1 :: rest1)
    else
      replacementChar :: utf8Lossy rest
termination_by l => l.length

/-! ## Observable effects

The calls the program makes on its external collaborators (the BLE
transport and the terminal driver), in the order it issues them. -/

/-- One observable external call. -/
inductive Effect
  | scanStart
  | sleepScanWindow
  | connectAttempt
  | discoverAttempt
  | subscribeAttempt
  | enterRawMode
  | enterAltScreen
  | spawnWrite (data : List Nat)
  | printChunk (s : List Char)
  | flush
  | leaveRawMode
  | leaveAltScreen
  deriving DecidableEq

/-! ## The notification relay task

`while let Some(ValueNotification { value, .. }) = notif_stream.next().await`:
each payload is decoded lossily, printed, and stdout is flushed. -/

/-- The relay task's effect trace over the finite stream of notification
payloads, in arrival order. -/
def relayLoop : List (List Nat) → List Effect
  | [] => []
  | value :: rest =>
    Effect.printChunk (utf8Lossy value) :: Effect.flush :: relayLoop rest

/-! ## The environment and the whole-program model

Each external call the program makes is an oracle recorded in `Env`.
`runSetup` models `main` up to (and including) obtaining the
notification stream; `runMain` adds the Active phase and Teardown. -/

/-- The oracle for every external interaction of one program run. -/
structure Env where
  /-- The `--name` CLI argument: the device name filter. -/
  name : String
  /-- `manager.adapters()`: the host's BLE adapters. -/
  adapters : List Nat
  /-- `central.start_scan(ScanFilter::default())`. -/
  scanResult : Except String Unit
  /-- `central.peripherals()`: every peripheral seen during the 5 s scan
  window, in scan order. -/
  peripheralsResult : Except String (List Peripheral)
  /-- `peripheral.connect()`. -/
  connectResult : Except String Unit
  /-- `peripheral.discover_services()`. -/
  discoverResult : Except String Unit
  /-- The UUIDs of `peripheral.characteristics()` after discovery. -/
  characteristics : List Nat
  /-- `peripheral.subscribe(&tx_char)`. -/
  subscribeResult : Except String Unit
  /-- `peripheral.notifications()` plus the finite stream of notification
  payloads the transport will deliver, in arrival order. -/
  notifStreamResult : Except String (List (List Nat))
  /-- The result of the spawned one-shot startup write (discarded by the
  program). -/
  startupOutcome : Except Unit Unit
  /-- The result of the `i`-th spawned keystroke write (discarded by the
  program). -/
  writeOutcome : Nat → Except Unit Unit
  /-- The finite stream of terminal key events the poll loop will see. -/
  keyEvents : List KeyEvent

/-- Whether the program is still inside the Active phase when the
modelled event streams run out, or has finished with an exit status. -/
inductive Outcome
  | running
  | finished (e : Except String Unit)

/-- The observable behaviour of one run: the linear effect trace in
program order through entry into the Active phase, the relay task's
trace, the payloads of all dispatched writes (startup first, then
keystroke sends in keystroke order), the teardown trace, and the
outcome.  The relay trace and the write dispatches are separate
components because the program imposes no ordering between the
concurrent tasks. -/
structure RunResult where
  trace : List Effect
  relayTrace : List Effect
  writeDispatches : List (List Nat)
  teardownTrace : List Effect
  outcome : Outcome

/-- The Setup phase of `main`, step by step in source order: first
adapter, `start_scan`, the fixed 5 s sleep, `peripherals()`, the
name-filter `find`, `connect`, `discover_services`, resolution of the
RX and TX characteristics by UUID (whose `expect` panics abort the
program), `subscribe`, and `notifications()`.  Returns the effect trace
and either the error message the program aborts with or the
notification payload stream for the Active phase. -/
def runSetup (env : Env) : List Effect × Except String (List (List Nat)) :=
  match env.adapters.head? with
  | none => ([], .error "No bluetooth adapter found")
  | some _central =>
    match env.scanResult with
    | .error e => ([Effect.scanStart], .error e)
    | .ok () =>
      match env.peripheralsResult with
      | .error e => ([Effect.scanStart, Effect.sleepScanWindow], .error e)
      | .ok ps =>
        match findPeripheral env.name ps with
        | none =>
          ([Effect.scanStart, Effect.sleepScanWindow],
           .error "Could not find a device with given name")
        | some _p =>
          match env.connectResult with
          | .error e =>
            ([Effect.scanStart, Effect.sleepScanWindow, Effect.connectAttempt],
             .error e)
          | .ok () =>
            match env.discoverResult with
            | .error e =>
              ([Effect.scanStart, Effect.sleepScanWindow, Effect.connectAttempt,
                Effect.discoverAttempt], .error e)
            | .ok () =>
              match env.characteristics.find? (fun c => c == NUS_RX_CHAR_UUID) with
              | none =>
                ([Effect.scanStart, Effect.sleepScanWindow, Effect.connectAttempt,
                  Effect.discoverAttempt], .error "RX characteristic not found")
              | some _rx =>
                match env.characteristics.find? (fun c => c == NUS_TX_CHAR_UUID) with
                | none =>
                  ([Effect.scanStart, Effect.sleepScanWindow, Effect.connectAttempt,
                    Effect.discoverAttempt], .error "TX characteristic not found")
                | some _tx =>
                  match env.subscribeResult with
                  | .error e =>
                    ([Effect.scanStart, Effect.sleepScanWindow, Effect.connectAttempt,
                      Effect.discoverAttempt, Effect.subscribeAttempt], .error e)
                  | .ok () =>
                    match env.notifStreamResult with
                    | .error e =>
                      ([Effect.scanStart, Effect.sleepScanWindow, Effect.connectAttempt,
                        Effect.discoverAttempt, Effect.subscribeAttempt], .error e)
                    | .ok payloads =>
                      ([Effect.scanStart, Effect.sleepScanWindow, Effect.connectAttempt,
                        Effect.discoverAttempt, Effect.subscribeAttempt], .ok payloads)

/-- The payload of the one-shot startup write: `['l' as u8 & 0x1F]`. -/
def startupPayload : List Nat := [('l'.toNat % 256) &&& 0x1F]

/-- The whole program.  On setup failure `main` returns the error before
any terminal-mode change.  On success it enables raw mode, enters the
alternate screen, spawns the startup write (result discarded), spawns
the notification relay, and runs the key-poll loop; if the loop breaks
on Escape it disables raw mode, leaves the alternate screen and returns
`Ok(())`. -/
def runMain (env : Env) : RunResult :=
  match runSetup env with
  | (tr, .error e) =>
    { trace := tr, relayTrace := [], writeDispatches := [],
      teardownTrace := [], outcome := .finished (.error e) }
  | (tr, .ok payloads) =>
    let _startupResult := env.startupOutcome
    let pl := pollLoop env.writeOutcome env.keyEvents 0
    { trace := tr ++ [Effect.enterRawMode, Effect.enterAltScreen,
        Effect.spawnWrite startupPayload]
      relayTrace := relayLoop payloads
      writeDispatches := startupPayload :: pl.1
      teardownTrace :=
        if pl.2 then [Effect.leaveRawMode, Effect.leaveAltScreen] else []
      outcome := if pl.2 then .finished (.ok ()) else .running }

/-! ## Concrete environments used to instantiate the theorems -/

/-- The spec's scan-order example: peripherals advertising
`["Foo-1", "Bar-2", "Foo-2"]`. -/
def psFoo : List Peripheral :=
  [⟨0, .ok (some ⟨some "Foo-1"⟩)⟩,
   ⟨1, .ok (some ⟨some "Bar-2"⟩)⟩,
   ⟨2, .ok (some ⟨some "Foo-2"⟩)⟩]

/-- A run in which every setup step succeeds: one peripheral named
`"My-UART-Dev"`, filter `"UART"`, both NUS characteristics present, two
notification payloads, the keystroke `a` followed by Escape. -/
def envOk : Env :=
  { name := "UART"
    adapters := [0]
    scanResult := .ok ()
    peripheralsResult := .ok [⟨0, .ok (some ⟨some "My-UART-Dev"⟩)⟩]
    connectResult := .ok ()
    discoverResult := .ok ()
    characteristics := [NUS_RX_CHAR_UUID, NUS_TX_CHAR_UUID]
    subscribeResult := .ok ()
    notifStreamResult := .ok [[0x68, 0x69], [0x68, 0x69]]
    startupOutcome := .ok ()
    writeOutcome := fun _ => .ok ()
    keyEvents := [⟨.Char 'a', false⟩, ⟨.Esc, false⟩] }

/-- A run on a host with no BLE adapter. -/
def envNoAdapter : Env :=
  { envOk with adapters := [] }

/-- A run in which no scanned peripheral matches the filter `"Foo"`: one
candidate advertises the non-matching name `"Bar-2"`, one errors on the
properties lookup, one has no properties, and one has no advertised
name. -/
def envNoMatch : Env :=
  { envOk with
    name := "Foo"
    peripheralsResult := .ok
      [⟨0, .ok (some ⟨some "Bar-2"⟩)⟩,
       ⟨1, .error ()⟩,
       ⟨2, .ok none⟩,
       ⟨3, .ok (some ⟨none⟩)⟩] }

/-! ## Lemmas about substring containment and discovery -/

theorem prefixEq_iff (n h : List Char) :
    prefixEq n h = true ↔ ∃ t, h = n ++ t := by
  induction n generalizing h with
  | nil => simp [prefixEq]
  | cons a as ih =>
    cases h with
    | nil => simp [prefixEq]
    | cons b bs =>
      simp only [prefixEq, Bool.and_eq_true, beq_iff_eq, ih, List.cons_append,
        List.cons.injEq]
      constructor
      · rintro ⟨rfl, t, rfl⟩; exact ⟨t, rfl, rfl⟩
      · rintro ⟨t, rfl, rfl⟩; exact ⟨rfl, t, rfl⟩

theorem containsAux_iff (n h : List Char) :
    containsAux n h = true ↔ ∃ l r, h = l ++ n ++ r := by
  induction h with
  | nil =>
    simp only [containsAux, prefixEq_iff]
    constructor
    · rintro ⟨t, ht⟩
      exact ⟨[], t, by simpa using ht⟩
    · rintro ⟨l, r, hlr⟩
      refine ⟨r, ?_⟩
      have : l = [] ∧ n ++ r = [] := by
        constructor
        · cases l with
          | nil => rfl
          | cons x xs => simp at hlr
        · cases l with
          | nil => simpa using hlr.symm
          | cons x xs => simp at hlr
      rcases this with ⟨rfl, h2⟩
      simp only [List.append_eq_nil] at h2
      simp [h2.1, h2.2]
  | cons b bs ih =>
    simp only [containsAux, Bool.or_eq_true, prefixEq_iff, ih]
    constructor
    · rintro (⟨t, ht⟩ | ⟨l, r, hlr⟩)
      · exact ⟨[], t, by simpa using ht⟩
      · exact ⟨b :: l, r, by simp [hlr]⟩
    · rintro ⟨l, r, hlr⟩
      cases l with
      | nil =>
        left
        exact ⟨r, by simpa using hlr⟩
      | cons x xs =>
        right
        simp only [List.cons_append, List.cons.injEq] at hlr
        exact ⟨xs, r, hlr.2⟩

/-- A successful `List.find?` returns the first satisfying element: the
list splits at the result with every earlier element failing the
predicate. -/
theorem find?_first {α : Type} (p : α → Bool) (l : List α) (a : α)
    (h : l.find? p = some a) :
    ∃ l1 l2, l = l1 ++ a :: l2 ∧ ∀ x ∈ l1, p x = false := by
  induction l with
  | nil => simp [List.find?] at h
  | cons b bs ih =>
    by_cases hb : p b = true
    · rw [List.find?_cons_of_pos _ hb] at h
      cases h
      exact ⟨[], bs, rfl, by simp⟩
    · have hb' : p b = false := by simpa using hb
      rw [List.find?_cons_of_neg _ hb] at h
      obtain ⟨l1, l2, rfl, hall⟩ := ih h
      refine ⟨b :: l1, l2, rfl, ?_⟩
      intro x hx
      rcases List.mem_cons.mp hx with rfl | hx'
      · exact hb'
      · exact hall x hx'

/-- Unfolding of `peripheralMatches` to substring containment: the
predicate holds iff the properties lookup succeeded with a name that
contains the filter contiguously. -/
theorem peripheralMatches_iff (f : String) (p : Peripheral) :
    peripheralMatches f p = true ↔
      ∃ props name, p.propsResult = .ok (some props) ∧
        props.local_name = some name ∧
        ∃ l r, name.data = l ++ f.data ++ r := by
  unfold peripheralMatches
  cases hp : p.propsResult with
  | error e => simp
  | ok o =>
    cases o with
    | none => simp
    | some props =>
      cases hn : props.local_name with
      | none => simp [hn]
      | some name =>
        simp only [hn, strContains, containsAux_iff]
        constructor
        · rintro ⟨l, r, hlr⟩
          exact ⟨props, name, rfl, hn, l, r, hlr⟩
        · rintro ⟨props', name', h1, h2, l, r, hlr⟩
          cases h1
          rw [hn] at h2
          cases h2
          exact ⟨l, r, hlr⟩

/-! ## Lemmas about the poll loop -/

/-- Escape is the unique key code mapped to loop termination. -/
theorem keyAction_terminate_iff (e : KeyEvent) :
    keyAction e = .terminate ↔ e.code = KeyCode.Esc := by
  cases he : e.code <;> simp [keyAction, he]

/-- The dispatched payloads and exit flag do not depend on the outcomes
of the spawned writes (they are discarded), nor on the spawn counter. -/
theorem pollLoop_indep (w w' : Nat → Except Unit Unit) (ks : List KeyEvent)
    (i j : Nat) : pollLoop w ks i = pollLoop w' ks j := by
  induction ks generalizing i j with
  | nil => rfl
  | cons e rest ih =>
    cases hka : keyAction e with
    | terminate => simp [pollLoop, hka]
    | send d => simp [pollLoop, hka, ih (i + 1) (j + 1)]
    | ignore => simp [pollLoop, hka, ih i j]

/-- The loop exits by Escape iff some delivered event is the Escape key. -/
theorem pollLoop_escaped_iff (w : Nat → Except Unit Unit) (ks : List KeyEvent)
    (i : Nat) :
    (pollLoop w ks i).2 = true ↔ ∃ e ∈ ks, e.code = KeyCode.Esc := by
  induction ks generalizing i with
  | nil => simp [pollLoop]
  | cons e rest ih =>
    by_cases he : e.code = KeyCode.Esc
    · have hka : keyAction e = .terminate := (keyAction_terminate_iff e).mpr he
      simp only [pollLoop, hka]
      simp [he]
    · have hka : keyAction e ≠ .terminate := fun h =>
        he ((keyAction_terminate_iff e).mp h)
      have hsnd : (pollLoop w (e :: rest) i).2 = (pollLoop w rest i).2 := by
        cases hk : keyAction e with
        | terminate => exact absurd hk hka
        | send d =>
          simp [pollLoop, hk, pollLoop_indep w w rest (i + 1) i]
        | ignore => simp [pollLoop, hk]
      rw [hsnd, ih]
      constructor
      · rintro ⟨x, hx, hxc⟩; exact ⟨x, List.mem_cons_of_mem _ hx, hxc⟩
      · rintro ⟨x, hx, hxc⟩
        rcases List.mem_cons.mp hx with rfl | hx'
        · exact absurd hxc he
        · exact ⟨x, hx', hxc⟩

/-! ## Lemmas about the relay loop -/

theorem relayLoop_eq_bind (payloads : List (List Nat)) :
    relayLoop payloads =
      payloads.flatMap fun v => [Effect.printChunk (utf8Lossy v), Effect.flush] := by
  induction payloads with
  | nil => rfl
  | cons v rest ih => simp [relayLoop, ih]

theorem relayLoop_append (l1 l2 : List (List Nat)) :
    relayLoop (l1 ++ l2) = relayLoop l1 ++ relayLoop l2 := by
  induction l1 with
  | nil => rfl
  | cons v rest ih => simp [relayLoop, ih]

theorem relayLoop_length (payloads : List (List Nat)) :
    (relayLoop payloads).length = 2 * payloads.length := by
  induction payloads with
  | nil => rfl
  | cons v rest ih =>
    simp only [relayLoop, List.length_cons, ih]
    omega

/-! ## Unfolding lemmas for `runMain` -/

/-- On setup failure `runMain` produces the setup trace, empty concurrent
components, and the error outcome. -/
theorem runMain_error (env : Env) (e : String)
    (h : (runSetup env).2 = .error e) :
    runMain env =
      { trace := (runSetup env).1, relayTrace := [], writeDispatches := [],
        teardownTrace := [], outcome := .finished (.error e) } := by
  unfold runMain
  rcases hEq : runSetup env with ⟨tr, r⟩
  rw [hEq] at h
  simp only at h
  subst h
  rfl

/-- On setup success `runMain` unfolds to the Active-phase components. -/
theorem runMain_active (env : Env) (payloads : List (List Nat))
    (h : (runSetup env).2 = .ok payloads) :
    runMain env =
      { trace := (runSetup env).1 ++ [Effect.enterRawMode, Effect.enterAltScreen,
          Effect.spawnWrite startupPayload]
        relayTrace := relayLoop payloads
        writeDispatches :=
          startupPayload :: (pollLoop env.writeOutcome env.keyEvents 0).1
        teardownTrace :=
          if (pollLoop env.writeOutcome env.keyEvents 0).2 then
            [Effect.leaveRawMode, Effect.leaveAltScreen] else []
        outcome :=
          if (pollLoop env.writeOutcome env.keyEvents 0).2 then
            .finished (.ok ()) else .running } := by
  unfold runMain
  rcases hEq : runSetup env with ⟨tr, r⟩
  rw [hEq] at h
  simp only at h
  subst h
  rfl

/-- The setup trace never contains the raw-mode entry effect: raw mode is
enabled only after every setup step has succeeded. -/
theorem runSetup_no_rawMode (env : Env) :
    Effect.enterRawMode ∉ (runSetup env).1 := by
  unfold runSetup
  repeat' split
  all_goals simp

/-- Every setup step is attempted at most once: no retry loop. -/
theorem runSetup_no_retry (env : Env) :
    (runSetup env).1.count Effect.scanStart ≤ 1 ∧
    (runSetup env).1.count Effect.connectAttempt ≤ 1 ∧
    (runSetup env).1.count Effect.discoverAttempt ≤ 1 ∧
    (runSetup env).1.count Effect.subscribeAttempt ≤ 1 := by
  unfold runSetup
  repeat' split
  all_goals simp [List.count_cons, List.count_nil]

/-! ## The claims -/

/-- C1: For every terminal key event the Input Encoder produces exactly
the bytes of the spec's encoding table: Backspace yields `[0x08]`; a
printable ASCII character `c` without Control yields the single byte
`ord c` and with Control the single byte `ord c &&& 0x1F`; the
Left/Right/Up/Down arrow keys yield the 3-byte sequences `ESC [ D`,
`ESC [ C`, `ESC [ A`, `ESC [ B`; Enter yields `[0x0D]`; Tab yields
`[0x09]`; and every other non-Escape key yields nothing. -/
theorem encoder_matches_table (c : Char) (m : Bool) (n : Nat)
    (h1 : 0x20 ≤ c.toNat) (h2 : c.toNat ≤ 0x7E) :
    keyAction ⟨KeyCode.Backspace, m⟩ = .send [0x08] ∧
    keyAction ⟨KeyCode.Char c, false⟩ = .send [c.toNat] ∧
    keyAction ⟨KeyCode.Char c, true⟩ = .send [c.toNat &&& 0x1F] ∧
    keyAction ⟨KeyCode.Left, m⟩ = .send [0x1B, 0x5B, 0x44] ∧
    keyAction ⟨KeyCode.Right, m⟩ = .send [0x1B, 0x5B, 0x43] ∧
    keyAction ⟨KeyCode.Up, m⟩ = .send [0x1B, 0x5B, 0x41] ∧
    keyAction ⟨KeyCode.Down, m⟩ = .send [0x1B, 0x5B, 0x42] ∧
    keyAction ⟨KeyCode.Enter, m⟩ = .send [0x0D] ∧
    keyAction ⟨KeyCode.Tab, m⟩ = .send [0x09] ∧
    keyAction ⟨KeyCode.Other n, m⟩ = .ignore := by
  have hlt : c.toNat < 256 := by omega
  refine ⟨rfl, ?_, ?_, rfl, rfl, rfl, rfl, rfl, rfl, rfl⟩
  · simp [keyAction, encodeCharKey, Nat.mod_eq_of_lt hlt]
  · simp [keyAction, encodeCharKey, Nat.mod_eq_of_lt hlt]

/-- Witness for C1: the encoder applied to `a` and to Ctrl-`l`. -/
theorem encoder_matches_table_witness :
    keyAction ⟨KeyCode.Char 'a', false⟩ = .send [0x61] ∧
    keyAction ⟨KeyCode.Char 'l', true⟩ = .send [0x0C] := by
  have ha := encoder_matches_table 'a' false 0 (by decide) (by decide)
  have hl := encoder_matches_table 'l' false 0 (by decide) (by decide)
  exact ⟨ha.2.1, hl.2.2.1⟩

/-- C10: for a character key whose code point exceeds 255, the encoder
still emits exactly one byte: without Control the code point truncated
mod 256, with Control that value masked with `0x1F`. -/
theorem char_truncation_high_codepoint (c : Char) (_hc : 255 < c.toNat) :
    keyAction ⟨KeyCode.Char c, false⟩ = .send [c.toNat % 256] ∧
    keyAction ⟨KeyCode.Char c, true⟩ = .send [(c.toNat % 256) &&& 0x1F] :=
  ⟨rfl, rfl⟩

/-- Witness for C10: the Euro sign U+20AC (code point 8364). -/
theorem char_truncation_high_codepoint_witness :
    keyAction ⟨KeyCode.Char '€', false⟩ = .send [0xAC] ∧
    keyAction ⟨KeyCode.Char '€', true⟩ = .send [0x0C] := by
  have h := char_truncation_high_codepoint '€' (by decide)
  exact ⟨h.1, h.2⟩

/-- C2: when the Device Locator (applied to the complete peripheral list
gathered after the full scan window) returns a peripheral, that
peripheral's advertised name contains the filter as a case-sensitive
contiguous substring; it is the first such peripheral in scan order
(every earlier one fails the match); and a candidate whose
advertised-name lookup errors is treated as non-matching rather than
propagating the error. -/
theorem locator_first_matching (f : String) (ps : List Peripheral)
    (p : Peripheral) (h : findPeripheral f ps = some p) :
    peripheralMatches f p = true ∧
    (∃ props name, p.propsResult = .ok (some props) ∧
      props.local_name = some name ∧ ∃ l r, name.data = l ++ f.data ++ r) ∧
    (∃ l1 l2, ps = l1 ++ p :: l2 ∧ ∀ q ∈ l1, peripheralMatches f q = false) ∧
    (∀ q : Peripheral, q.propsResult = .error () → peripheralMatches f q = false) := by
  have hm : peripheralMatches f p = true := List.find?_some h
  refine ⟨hm, (peripheralMatches_iff f p).mp hm, find?_first _ _ _ h, ?_⟩
  intro q hq
  simp [peripheralMatches, hq]

/-- Witness for C2: the spec's example scan `["Foo-1", "Bar-2", "Foo-2"]`
with filter `"Foo"` selects the first entry, which matches. -/
theorem locator_first_matching_witness :
    peripheralMatches "Foo" ⟨0, .ok (some ⟨some "Foo-1"⟩)⟩ = true :=
  (locator_first_matching "Foo" psFoo ⟨0, .ok (some ⟨some "Foo-1"⟩)⟩ rfl).1

/-- C3: Escape never causes a byte to be transmitted and is the unique
key event that ends the Active phase: the encoder maps a key event to
`terminate` exactly when it is Escape; an Escape at the head of the
event stream ends the loop immediately with no dispatched send; and a
run whose setup succeeded reaches Teardown with success exactly when
some delivered key event is Escape. -/
theorem escape_unique_terminator (e : KeyEvent) (w : Nat → Except Unit Unit)
    (i : Nat) (rest : List KeyEvent) (env : Env) (payloads : List (List Nat)) :
    (keyAction e = KeyAction.terminate ↔ e.code = KeyCode.Esc) ∧
    (e.code = KeyCode.Esc → pollLoop w (e :: rest) i = ([], true)) ∧
    ((runSetup env).2 = .ok payloads →
      ((runMain env).outcome = Outcome.finished (.ok ()) ↔
        ∃ k ∈ env.keyEvents, k.code = KeyCode.Esc)) := by
  refine ⟨keyAction_terminate_iff e, ?_, ?_⟩
  · intro he
    have hka : keyAction e = .terminate := (keyAction_terminate_iff e).mpr he
    simp [pollLoop, hka]
  · intro h
    rw [runMain_active env payloads h]
    by_cases hp : (pollLoop env.writeOutcome env.keyEvents 0).2 = true
    · simp only [hp, if_true]
      constructor
      · intro _
        exact (pollLoop_escaped_iff _ _ _).mp hp
      · intro _
        trivial
    · have hp' : (pollLoop env.writeOutcome env.keyEvents 0).2 = false := by
        simpa using hp
      simp only [hp', if_false]
      constructor
      · intro hcon
        exact Outcome.noConfusion hcon
      · intro hex
        have ht : (pollLoop env.writeOutcome env.keyEvents 0).2 = true :=
          (pollLoop_escaped_iff _ _ _).mpr hex
        rw [hp'] at ht
        cases ht

/-- Witness for C3: a lone Escape ends the loop with no send; the fully
successful run `envOk` (whose events end in Escape) exits cleanly. -/
theorem escape_unique_terminator_witness :
    pollLoop (fun _ => Except.ok ()) [⟨KeyCode.Esc, false⟩] 0 = ([], true) ∧
    (runMain envOk).outcome = Outcome.finished (.ok ()) := by
  have h := escape_unique_terminator ⟨KeyCode.Esc, false⟩ (fun _ => Except.ok ())
    0 [] envOk [[0x68, 0x69], [0x68, 0x69]]
  exact ⟨h.2.1 rfl, (h.2.2 rfl).mpr ⟨⟨KeyCode.Esc, false⟩, by decide, rfl⟩⟩

/-- C4: the notification relay decodes every payload with the total
lossy UTF-8 decoder, writes the chunks in exactly the order the
payloads arrived with a flush after every chunk, and performs no
deduplication or coalescing: its trace is the concatenation, payload by
payload, of one print and one flush, it distributes over stream
concatenation (so repeated identical payloads are each relayed), and it
emits exactly two effects per payload. -/
theorem relay_order_flush_no_dedup (payloads l1 l2 : List (List Nat)) :
    relayLoop payloads =
      (payloads.flatMap fun v => [Effect.printChunk (utf8Lossy v), Effect.flush]) ∧
    relayLoop (l1 ++ l2) = relayLoop l1 ++ relayLoop l2 ∧
    (relayLoop payloads).length = 2 * payloads.length :=
  ⟨relayLoop_eq_bind payloads, relayLoop_append l1 l2, relayLoop_length payloads⟩

/-- C5: every setup-phase failure makes the program finish with an error
before raw mode is entered: the trace of a failed run never contains the
raw-mode entry effect, no teardown, write or relay activity happens, and
no setup step is ever attempted twice (no retries). -/
theorem setup_failure_before_raw_mode (env : Env) (e : String)
    (h : (runMain env).outcome = Outcome.finished (.error e)) :
    Effect.enterRawMode ∉ (runMain env).trace ∧
    (runMain env).relayTrace = [] ∧
    (runMain env).writeDispatches = [] ∧
    (runMain env).teardownTrace = [] ∧
    (runMain env).trace.count Effect.connectAttempt ≤ 1 ∧
    (runMain env).trace.count Effect.subscribeAttempt ≤ 1 := by
  cases hr : (runSetup env).2 with
  | error e' =>
    rw [runMain_error env e' hr]
    exact ⟨runSetup_no_rawMode env, rfl, rfl, rfl,
      (runSetup_no_retry env).2.1, (runSetup_no_retry env).2.2.2⟩
  | ok payloads =>
    rw [runMain_active env payloads hr] at h
    simp only at h
    split at h <;> cases h

/-- Witness for C5: a host with no BLE adapter. -/
theorem setup_failure_before_raw_mode_witness :
    Effect.enterRawMode ∉ (runMain envNoAdapter).trace ∧
    (runMain envNoAdapter).writeDispatches = [] := by
  have h := setup_failure_before_raw_mode envNoAdapter
    "No bluetooth adapter found" rfl
  exact ⟨h.1, h.2.2.1⟩

/-- C6: if no peripheral seen during the scan window has an advertised
name containing the filter (in particular when lookups error or yield
no name), the run finishes with the not-found error and no connection
attempt is ever made. -/
theorem locator_not_found_no_connect (env : Env) (ps : List Peripheral)
    (h1 : env.peripheralsResult = .ok ps)
    (h2 : ∀ p ∈ ps, ∀ props name, p.propsResult = .ok (some props) →
      props.local_name = some name →
      ¬ ∃ l r, name.data = l ++ env.name.data ++ r) :
    (env.adapters ≠ [] → env.scanResult = .ok () →
      (runMain env).outcome =
        Outcome.finished (.error "Could not find a device with given name")) ∧
    Effect.connectAttempt ∉ (runMain env).trace := by
  have hnom : ∀ p ∈ ps, peripheralMatches env.name p = false := by
    intro p hp
    cases hb : peripheralMatches env.name p with
    | false => rfl
    | true =>
      obtain ⟨props, name, hpr, hn, l, r, hlr⟩ := (peripheralMatches_iff _ _).mp hb
      exact absurd ⟨l, r, hlr⟩ (h2 p hp props name hpr hn)
  have hfind : findPeripheral env.name ps = none := by
    unfold findPeripheral
    rw [List.find?_eq_none]
    intro x hx
    simp [hnom x hx]
  constructor
  · intro ha hs
    have hrs2 : (runSetup env).2 =
        .error "Could not find a device with given name" := by
      cases hA : env.adapters with
      | nil => exact absurd hA ha
      | cons a as => unfold runSetup; simp [hA, hs, h1, hfind]
    rw [runMain_error env _ hrs2]
  · cases hA : env.adapters with
    | nil =>
      have hrs2 : (runSetup env).2 = .error "No bluetooth adapter found" := by
        unfold runSetup; simp [hA]
      have htr : (runSetup env).1 = [] := by
        unfold runSetup; simp [hA]
      rw [runMain_error env _ hrs2]
      simp [htr]
    | cons a as =>
      cases hS : env.scanResult with
      | error e =>
        have hrs2 : (runSetup env).2 = .error e := by
          unfold runSetup; simp [hA, hS]
        have htr : (runSetup env).1 = [Effect.scanStart] := by
          unfold runSetup; simp [hA, hS]
        rw [runMain_error env _ hrs2]
        simp [htr]
      | ok u =>
        cases u
        have hrs2 : (runSetup env).2 =
            .error "Could not find a device with given name" := by
          unfold runSetup; simp [hA, hS, h1, hfind]
        have htr : (runSetup env).1 =
            [Effect.scanStart, Effect.sleepScanWindow] := by
          unfold runSetup; simp [hA, hS, h1, hfind]
        rw [runMain_error env _ hrs2]
        simp [htr]

/-- Witness for C6: a scan whose candidates advertise a non-matching
name, error on lookup, have no properties, or have no name. -/
theorem locator_not_found_no_connect_witness :
    (runMain envNoMatch).outcome =
      Outcome.finished (.error "Could not find a device with given name") ∧
    Effect.connectAttempt ∉ (runMain envNoMatch).trace := by
  have h := locator_not_found_no_connect envNoMatch
    [⟨0, .ok (some ⟨some "Bar-2"⟩)⟩, ⟨1, .error ()⟩, ⟨2, .ok none⟩,
     ⟨3, .ok (some ⟨none⟩)⟩] rfl ?_
  · exact ⟨h.1 (by decide) rfl, h.2⟩
  · intro p hp props name hpr hn hex
    obtain ⟨l, r, hlr⟩ := hex
    rcases List.mem_cons.mp hp with rfl | hp
    · simp only [PeripheralProps.mk.injEq, Option.some.injEq, Except.ok.injEq] at hpr
      subst hpr
      simp only [Option.some.injEq] at hn
      subst hn
      have hc : containsAux ("Foo".data) ("Bar-2".data) = true :=
        (containsAux_iff _ _).mpr ⟨l, r, hlr⟩
      exact absurd hc (by decide)
    rcases List.mem_cons.mp hp with rfl | hp
    · cases hpr
    rcases List.mem_cons.mp hp with rfl | hp
    · cases hpr
    rcases List.mem_cons.mp hp with rfl | hp
    · simp only [PeripheralProps.mk.injEq, Option.some.injEq, Except.ok.injEq] at hpr
      subst hpr
      cases hn
    · cases hp

/-- C7: errors of outbound writes are silently absorbed: the entire
observable behaviour of a run (its trace, relay trace, dispatched
writes, teardown and outcome) is unchanged under any alteration of the
outcomes of the startup write and of every keystroke-triggered send. -/
theorem send_errors_absorbed (env : Env) (s' : Except Unit Unit)
    (w' : Nat → Except Unit Unit) :
    runMain { env with startupOutcome := s', writeOutcome := w' } = runMain env := by
  have hs : runSetup { env with startupOutcome := s', writeOutcome := w' } =
      runSetup env := by
    cases env
    rfl
  unfold runMain
  rw [hs]
  rcases hEq : runSetup env with ⟨tr, r⟩
  cases r with
  | error e => rfl
  | ok payloads =>
    have hp : pollLoop w' env.keyEvents 0 =
        pollLoop env.writeOutcome env.keyEvents 0 :=
      pollLoop_indep _ _ _ _ _
    simp only [hp]

/-- C8: entering the Active phase dispatches exactly one startup write,
its payload is the single byte `0x0C` (Ctrl-L), and it is dispatched
before every keystroke-triggered send. -/
theorem startup_write_first (env : Env) (payloads : List (List Nat))
    (h : (runSetup env).2 = .ok payloads) :
    (runMain env).writeDispatches =
      startupPayload :: (pollLoop env.writeOutcome env.keyEvents 0).1 ∧
    startupPayload = [0x0C] := by
  rw [runMain_active env payloads h]
  exact ⟨rfl, by decide⟩

/-- Witness for C8: the fully successful run `envOk`. -/
theorem startup_write_first_witness :
    (runMain envOk).writeDispatches =
      startupPayload :: (pollLoop envOk.writeOutcome envOk.keyEvents 0).1 ∧
    startupPayload = [0x0C] :=
  startup_write_first envOk [[0x68, 0x69], [0x68, 0x69]] rfl

/-- C9: when the Active phase ends via Escape, the program leaves raw
mode, restores the original screen, and finishes with success — for
every environment, i.e. regardless of how many in-flight sends or
relays were pending (no drain or flush barrier appears in the teardown
trace). -/
theorem teardown_on_escape (env : Env) (payloads : List (List Nat))
    (h1 : (runSetup env).2 = .ok payloads)
    (h2 : ∃ k ∈ env.keyEvents, k.code = KeyCode.Esc) :
    (runMain env).outcome = Outcome.finished (.ok ()) ∧
    (runMain env).teardownTrace = [Effect.leaveRawMode, Effect.leaveAltScreen] := by
  rw [runMain_active env payloads h1]
  have hp := (pollLoop_escaped_iff env.writeOutcome env.keyEvents 0).mpr h2
  simp [hp]

/-- Witness for C9: the fully successful run `envOk` ended by Escape. -/
theorem teardown_on_escape_witness :
    (runMain envOk).outcome = Outcome.finished (.ok ()) ∧
    (runMain envOk).teardownTrace =
      [Effect.leaveRawMode, Effect.leaveAltScreen] :=
  teardown_on_escape envOk [[0x68, 0x69], [0x68, 0x69]] rfl
    ⟨⟨KeyCode.Esc, false⟩, by decide, rfl⟩

end NusTerminal
